import Mathlib

/-
Verification of `scripts/update_calendar.py` (taiwan-holidays).
The Python functions are embedded shallowly: CSV rows are modelled after
header resolution (the four extracted raw string fields), dictionaries as
association lists with last-write-wins insertion, exceptions as `Except`.
-/

set_option autoImplicit false

namespace TaiwanHolidays

/-! Part: Basic string helpers (Python semantics) -/

/-- Whitespace characters removed by Python `str.strip()` (ASCII subset). -/
def isPySpace (c : Char) : Bool :=
  c = ' ' || c = '\t' || c = '\n' || c = '\r' || c = '\x0b' || c = '\x0c'

/-- Python `str.strip()`: drop whitespace from both ends. -/
def strip (s : String) : String :=
  ⟨((s.toList.dropWhile isPySpace).reverse.dropWhile isPySpace).reverse⟩

/-- Python `str.replace(c, "")`: remove every occurrence of a single character. -/
def removeChar (c : Char) (s : String) : String :=
  ⟨s.toList.filter (fun d => d ≠ c)⟩

/-- First-match association-list lookup (Python `dict.get` on a dict built
without duplicate keys). -/
def alookup (k : String) : List (String × String) → Option String
  | [] => none
  | (a, b) :: rest => if a = k then some b else alookup k rest

/-- True when the first list is an initial segment of the second. -/
def isPre : List Char → List Char → Bool
  | [], _ => true
  | _ :: _, [] => false
  | a :: as, b :: bs => a = b && isPre as bs

/-- True when `n` occurs as a contiguous run inside the second list
(Python `n in h` on strings). -/
def containsSubList (n : List Char) : List Char → Bool
  | [] => isPre n []
  | c :: rest => isPre n (c :: rest) || containsSubList n rest

/-- Python `needle in hay` for strings. -/
def containsSub (n h : String) : Bool :=
  containsSubList n.toList h.toList

/-! Part: Data model -/

/-- The canonical record produced by `convert_csv_to_json`. -/
structure CalendarRecord where
  date : String
  week : String
  isHoliday : Bool
  description : String
deriving DecidableEq

/-- A CSV row after header resolution: the raw string values taken from the
columns 西元日期/date, 星期/week, 是否放假/isHoliday, 備註/description
(missing columns yield `""`, exactly as `row.get(..., "")` does). -/
structure RawRow where
  dateField : String
  weekField : String
  holidayField : String
  descField : String
deriving DecidableEq

/-! Part: Fixed lookup tables (source order preserved) -/

def WEEK_MAP : List (String × String) :=
  [("0", "日"), ("1", "一"), ("2", "二"), ("3", "三"),
   ("4", "四"), ("5", "五"), ("6", "六"),
   ("日", "日"), ("一", "一"), ("二", "二"), ("三", "三"),
   ("四", "四"), ("五", "五"), ("六", "六")]

def WEEK_EN_MAP : List (String × String) :=
  [("日", "Sun"), ("一", "Mon"), ("二", "Tue"), ("三", "Wed"),
   ("四", "Thu"), ("五", "Fri"), ("六", "Sat")]

def HOLIDAY_EN_MAP : List (String × String) :=
  [("開國紀念日", "New Year's Day"),
   ("補假", "Compensatory Leave"),
   ("小年夜", "Lunar New Year's Eve Eve"),
   ("農曆除夕", "Lunar New Year's Eve"),
   ("春節", "Lunar New Year"),
   ("調整上班", "Make-up Workday"),
   ("補行上班", "Make-up Workday"),
   ("調整放假", "Adjusted Holiday"),
   ("放假", "Holiday"),
   ("和平紀念日", "Peace Memorial Day"),
   ("兒童節及民族掃墓節", "Children's Day & Tomb Sweeping Day"),
   ("兒童節", "Children's Day"),
   ("民族掃墓節", "Tomb Sweeping Day"),
   ("端午節", "Dragon Boat Festival"),
   ("中秋節", "Mid-Autumn Festival"),
   ("國慶日", "National Day"),
   ("彈性放假", "Flexible Holiday"),
   ("孔子誕辰紀念日", "Confucius Birthday"),
   ("臺灣光復暨金門古寧頭大捷紀念日", "Taiwan Retrocession Day"),
   ("臺灣光復節", "Taiwan Retrocession Day"),
   ("行憲紀念日", "Constitution Day")]

/-! Part: Normalizer (`convert_csv_to_json`, lines 119-153) -/

/-- Line 130: `str(date_value).replace("/", "").replace("-", "")`. -/
def normDate (s : String) : String :=
  removeChar '-' (removeChar '/' s)

/-- Line 134: `WEEK_MAP.get(str(week_value).strip(), week_value)` — note the
default is the unstripped value. -/
def weekOf (w : String) : String :=
  (alookup (strip w) WEEK_MAP).getD w

/-- Lines 137-142: the holiday-flag branch chain, applied to the already
stripped string. -/
def isHolidayOf (s : String) : Bool :=
  if s ∈ ["2", "是", "true", "True", "1"] then true
  else if s ∈ ["0", "否", "false", "False"] then false
  else s == "2"

/-- Line 144: `str(desc_value).strip() if desc_value else ""`. -/
def descOf (s : String) : String :=
  if s = "" then "" else strip s

/-- One iteration of the row loop: `none` when the row is skipped by
`continue` (stripped date length ≠ 8). -/
def convertRow (row : RawRow) : Option CalendarRecord :=
  let dateStr := normDate row.dateField
  if dateStr.length ≠ 8 then none
  else some { date := dateStr
            , week := weekOf row.weekField
            , isHoliday := isHolidayOf (strip row.holidayField)
            , description := descOf row.descField }

def convert_csv_to_json (rows : List RawRow) : List CalendarRecord :=
  rows.filterMap convertRow

/-- Specification-side view of a kept row: the record built from a row
whose stripped date has length 8. -/
def keptRecord (row : RawRow) : CalendarRecord :=
  { date := normDate row.dateField
  , week := weekOf row.weekField
  , isHoliday := isHolidayOf (strip row.holidayField)
  , description := descOf row.descField }

/-! Part: Derivers (lines 156-186) -/

def generate_holidays_only (data : List CalendarRecord) : List CalendarRecord :=
  data.filter (fun d => d.isHoliday && d.description ≠ "")

def workday_keywords : List String := ["調整上班", "補行上班", "補班"]

def generate_workdays (data : List CalendarRecord) : List CalendarRecord :=
  data.filter (fun d => !d.isHoliday && workday_keywords.any (fun kw => containsSub kw d.description))

/-- The `for zh, en in HOLIDAY_EN_MAP.items(): if zh in desc: ...; break`
loop: translation of the first table entry whose key occurs in `desc`. -/
def firstSubMatch (desc : String) : List (String × String) → Option String
  | [] => none
  | (zh, en) :: rest => if containsSub zh desc then some en else firstSubMatch desc rest

/-- Body of the loop of `translate_to_english` (lines 171-185). -/
def translateRecord (d : CalendarRecord) : CalendarRecord :=
  let descEn0 := (alookup d.description HOLIDAY_EN_MAP).getD d.description
  let descEn :=
    if descEn0 = d.description ∧ d.description ≠ "" then
      (firstSubMatch d.description HOLIDAY_EN_MAP).getD descEn0
    else descEn0
  { date := d.date
  , week := (alookup d.week WEEK_EN_MAP).getD d.week
  , isHoliday := d.isHoliday
  , description := descEn }

def translate_to_english (data : List CalendarRecord) : List CalendarRecord :=
  data.map translateRecord

/-! Part: Source Lister (`get_csv_urls`, lines 64-93) -/

/-- One entry of the metadata API's `result.distribution` array, after the
`dist.get(..., "")` defaulting. -/
structure Distribution where
  resourceFormat : String
  resourceDescription : String
  resourceDownloadUrl : String
deriving DecidableEq

/-- Model of `re.search` with pattern three digits followed by 年: value of
the leftmost run of three decimal digits immediately followed by 年. -/
def yearToken : List Char → Option Nat
  | a :: b :: c :: d :: rest =>
      if a.isDigit && b.isDigit && c.isDigit && d = '年' then
        some (100 * (a.toNat - 48) + 10 * (b.toNat - 48) + (c.toNat - 48))
      else yearToken (b :: c :: d :: rest)
  | _ => none

/-- Python `str.upper()` (character-wise uppercasing). -/
def pyUpper (s : String) : String :=
  ⟨s.toList.map Char.toUpper⟩

/-- The filtering half of the loop body: `some (ad_year, url)` when the entry
survives every `continue`, `none` otherwise. -/
def keptEntry (d : Distribution) : Option (Nat × String) :=
  if pyUpper d.resourceFormat ≠ "CSV" then none
  else if d.resourceDownloadUrl = "" || containsSub "Google" d.resourceDescription then none
  else match yearToken d.resourceDescription.toList with
    | some roc => some (roc + 1911, d.resourceDownloadUrl)
    | none => none

/-- Python `dict` assignment `m[k] = v`: replace in place if the key exists
(keeping its position), otherwise append. -/
def dictInsert (k : Nat) (v : String) : List (Nat × String) → List (Nat × String)
  | [] => [(k, v)]
  | p :: rest => if p.1 = k then (k, v) :: rest else p :: dictInsert k v rest

/-- One iteration of `for dist in distributions`. -/
def listerStep (acc : List (Nat × String)) (d : Distribution) : List (Nat × String) :=
  match keptEntry d with
  | some (y, u) => dictInsert y u acc
  | none => acc

/-- The pure core of `get_csv_urls`, over the decoded distribution list. -/
def get_csv_urls (dists : List Distribution) : List (Nat × String) :=
  dists.foldl listerStep []

/-- Lookup in the year→URL dict. -/
def nlookup (k : Nat) : List (Nat × String) → Option String
  | [] => none
  | (a, b) :: rest => if a = k then some b else nlookup k rest

/-! Part: Orchestrator (`main`, lines 231-258)

Exceptions are modelled with `Except`: `lister` is the outcome of
`get_csv_urls` and `proc y url` the outcome of the per-year
`download_csv` + `process_year` body.  `main` sorts the years, runs each
year's body inside its own handler (recording success or failure) and
re-raises only a lister failure. -/

def mainRun (E : Type) (lister : Except E (List (Nat × String)))
    (proc : Nat → String → Except E Unit) : Except E (List (Nat × Bool)) :=
  match lister with
  | .error e => .error e
  | .ok urls =>
      .ok (((urls.map Prod.fst).insertionSort (· ≤ ·)).map
        (fun y => (y, match proc y ((nlookup y urls).getD "") with
                      | .ok _ => true
                      | .error _ => false)))

/-! Part: Writer (`save_json`, lines 189-197) and a JSON reader

`json.dump(data, f, ensure_ascii=False, indent=2)` for a list of the
four-field record dicts produces a fixed layout; `save_json` builds that
character stream.  `json_load` parses it back. -/

/-- Lowercase hex digit, as produced by Python's `\uXXXX` escapes. -/
def hexDig (n : Nat) : Char :=
  if n < 10 then Char.ofNat (48 + n) else Char.ofNat (87 + n)

/-- Value of one hex digit character. -/
def hexVal (c : Char) : Option Nat :=
  if '0' ≤ c ∧ c ≤ '9' then some (c.toNat - 48)
  else if 'a' ≤ c ∧ c ≤ 'f' then some (c.toNat - 87)
  else if 'A' ≤ c ∧ c ≤ 'F' then some (c.toNat - 55)
  else none

/-- JSON string escaping with `ensure_ascii=False`: only `"`, `\` and
control characters are escaped; everything else (non-ASCII included) is
emitted verbatim. -/
def escChar (c : Char) : List Char :=
  if c = '"' then ['\\', '"']
  else if c = '\\' then ['\\', '\\']
  else if c = '\x08' then ['\\', 'b']
  else if c = '\t' then ['\\', 't']
  else if c = '\n' then ['\\', 'n']
  else if c = '\x0c' then ['\\', 'f']
  else if c = '\r' then ['\\', 'r']
  else if c.toNat < 32 then ['\\', 'u', '0', '0', hexDig (c.toNat / 16), hexDig (c.toNat % 16)]
  else [c]

/-- A JSON string literal, quotes included. -/
def encStr (s : String) : List Char :=
  '"' :: (s.toList.flatMap escChar) ++ ['"']

def litDate : String := "  \x7b\n    \"date\": "
def litWeek : String := ",\n    \"week\": "
def litHol : String := ",\n    \"isHoliday\": "
def litDesc : String := ",\n    \"description\": "
def litEnd : String := "\n  \x7d"

/-- One record object, exactly as `json.dump(..., indent=2)` renders it at
nesting depth 1. -/
def encRecord (r : CalendarRecord) : List Char :=
  litDate.toList ++ encStr r.date ++ litWeek.toList ++ encStr r.week
    ++ litHol.toList ++ (if r.isHoliday then "true".toList else "false".toList)
    ++ litDesc.toList ++ encStr r.description ++ litEnd.toList

/-- Separator-prefixed remainder of the array body, closing bracket included. -/
def encTail : List CalendarRecord → List Char
  | [] => "\n]".toList
  | r :: rs => ',' :: '\n' :: (encRecord r ++ encTail rs)

/-- The character stream `json.dump(data, f, ensure_ascii=False, indent=2)`
writes for a record list. -/
def save_json : List CalendarRecord → List Char
  | [] => "[]".toList
  | r :: rs => '[' :: '\n' :: (encRecord r ++ encTail rs)

/-- Consume an expected literal, returning the remaining input. -/
def dropLit : List Char → List Char → Option (List Char)
  | [], s => some s
  | _ :: _, [] => none
  | c :: p, d :: s => if c = d then dropLit p s else none

/-- Parse the body of a JSON string literal (opening quote already
consumed), decoding escapes, up to the closing quote. -/
def parseStr : List Char → Option (List Char × List Char)
  | [] => none
  | c :: rest =>
    if c = '"' then some ([], rest)
    else if c = '\\' then
      match rest with
      | [] => none
      | e :: rest2 =>
        if e = '"' then (fun p => ('"' :: p.1, p.2)) <$> parseStr rest2
        else if e = '\\' then (fun p => ('\\' :: p.1, p.2)) <$> parseStr rest2
        else if e = 'b' then (fun p => ('\x08' :: p.1, p.2)) <$> parseStr rest2
        else if e = 't' then (fun p => ('\t' :: p.1, p.2)) <$> parseStr rest2
        else if e = 'n' then (fun p => ('\n' :: p.1, p.2)) <$> parseStr rest2
        else if e = 'f' then (fun p => ('\x0c' :: p.1, p.2)) <$> parseStr rest2
        else if e = 'r' then (fun p => ('\r' :: p.1, p.2)) <$> parseStr rest2
        else if e = 'u' then
          match rest2 with
          | h1 :: h2 :: h3 :: h4 :: rest3 =>
            match hexVal h1, hexVal h2, hexVal h3, hexVal h4 with
            | some a, some b, some c2, some d =>
              (fun p => (Char.ofNat (4096 * a + 256 * b + 16 * c2 + d) :: p.1, p.2)) <$> parseStr rest3
            | _, _, _, _ => none
          | _ => none
        else none
    else (fun p => (c :: p.1, p.2)) <$> parseStr rest

/-- Parse a quoted JSON string. -/
def parseQuoted (s : List Char) : Option (String × List Char) :=
  match s with
  | '"' :: rest => (fun p => (String.mk p.1, p.2)) <$> parseStr rest
  | _ => none

/-- Parse a JSON boolean. -/
def parseBool (s : List Char) : Option (Bool × List Char) :=
  match dropLit "true".toList s with
  | some rest => some (true, rest)
  | none =>
    match dropLit "false".toList s with
    | some rest => some (false, rest)
    | none => none

/-- Parse one record object of the emitted layout. -/
def parseRecord (s : List Char) : Option (CalendarRecord × List Char) :=
  match dropLit litDate.toList s with
  | none => none
  | some s1 =>
    match parseQuoted s1 with
    | none => none
    | some (date, s2) =>
      match dropLit litWeek.toList s2 with
      | none => none
      | some s3 =>
        match parseQuoted s3 with
        | none => none
        | some (week, s4) =>
          match dropLit litHol.toList s4 with
          | none => none
          | some s5 =>
            match parseBool s5 with
            | none => none
            | some (hol, s6) =>
              match dropLit litDesc.toList s6 with
              | none => none
              | some s7 =>
                match parseQuoted s7 with
                | none => none
                | some (desc, s8) =>
                  match dropLit litEnd.toList s8 with
                  | none => none
                  | some s9 =>
                    some ({ date := date, week := week, isHoliday := hol, description := desc }, s9)

/-- Parse the rest of the array after one record: either the closing
bracket or a comma-separated next record. -/
def parseTail : Nat → List Char → Option (List CalendarRecord × List Char)
  | 0, _ => none
  | fuel + 1, s =>
    match dropLit "\n]".toList s with
    | some rest => some ([], rest)
    | none =>
      match dropLit ",\n".toList s with
      | none => none
      | some s1 =>
        match parseRecord s1 with
        | none => none
        | some (r, s2) =>
          match parseTail fuel s2 with
          | none => none
          | some (rs, s3) => some (r :: rs, s3)

/-- Parse a whole document produced by the writer (the `json.load` side of
the round trip). -/
def json_load (s : List Char) : Option (List CalendarRecord) :=
  match dropLit "[]".toList s with
  | some [] => some []
  | _ =>
    match dropLit "[\n".toList s with
    | none => none
    | some s1 =>
      match parseRecord s1 with
      | none => none
      | some (r, s2) =>
        match parseTail s.length s2 with
        | some (rs, []) => some (r :: rs)
        | _ => none

/-! Part: Helper lemmas -/

theorem alookup_mem {k v : String} : ∀ {l : List (String × String)},
    alookup k l = some v → (k, v) ∈ l := by
  intro l
  induction l with
  | nil => intro h; simp [alookup] at h
  | cons p rest ih =>
    intro h
    by_cases hp : p.1 = k
    · obtain ⟨a, b⟩ := p
      simp only [alookup] at h
      simp only at hp
      rw [if_pos hp] at h
      obtain rfl := hp
      obtain rfl : b = v := by exact Option.some.inj h
      exact List.mem_cons_self _ _
    · obtain ⟨a, b⟩ := p
      simp only [alookup] at h
      rw [if_neg hp] at h
      exact List.mem_cons_of_mem _ (ih h)

theorem string_mk_toList (s : String) : String.mk s.toList = s := by
  cases s; rfl

theorem nlookup_dictInsert (k : Nat) (v : String) :
    ∀ m : List (Nat × String), nlookup k (dictInsert k v m) = some v := by
  intro m
  induction m with
  | nil => simp [dictInsert, nlookup]
  | cons p rest ih =>
    by_cases hp : p.1 = k
    · simp [dictInsert, hp, nlookup]
    · simp [dictInsert, hp, nlookup, ih]

theorem week_map_values : ∀ p ∈ WEEK_MAP, weekOf p.2 = p.2 := by decide

theorem holiday_map_value_ne_key : ∀ p ∈ HOLIDAY_EN_MAP, p.2 ≠ p.1 := by decide

theorem dropLit_append : ∀ (p s : List Char), dropLit p (p ++ s) = some s := by
  intro p
  induction p with
  | nil => intro s; rfl
  | cons c rest ih => intro s; simp [dropLit, ih]

theorem hexVal_hexDig (k : Nat) (h : k < 16) : hexVal (hexDig k) = some k := by
  interval_cases k <;> decide

theorem toList_true : "true".toList = ['t', 'r', 'u', 'e'] := rfl

theorem toList_false : "false".toList = ['f', 'a', 'l', 's', 'e'] := rfl

theorem toList_nlBracket : "\n]".toList = ['\n', ']'] := rfl

theorem toList_commaNl : ",\n".toList = [',', '\n'] := rfl

theorem toList_brackets : "[]".toList = ['[', ']'] := rfl

theorem toList_openNl : "[\n".toList = ['[', '\n'] := rfl

theorem parseStr_enc : ∀ (cs : List Char) (rest : List Char),
    parseStr (cs.flatMap escChar ++ '"' :: rest) = some (cs, rest) := by
  intro cs
  induction cs with
  | nil =>
    intro rest
    rw [List.flatMap_nil, List.nil_append, parseStr.eq_def]
    simp
  | cons c cs ih =>
    intro rest
    have hM : (c :: cs).flatMap escChar ++ '"' :: rest
        = escChar c ++ (cs.flatMap escChar ++ '"' :: rest) := by
      simp [List.flatMap_cons]
    rw [hM]
    by_cases h1 : c = '"'
    · subst h1
      rw [show escChar '"' = ['\\', '"'] from by decide, List.cons_append,
        List.cons_append, List.nil_append, parseStr.eq_def]
      simp [ih]
    by_cases h2 : c = '\\'
    · subst h2
      rw [show escChar '\\' = ['\\', '\\'] from by decide, List.cons_append,
        List.cons_append, List.nil_append, parseStr.eq_def]
      simp [ih]
    by_cases h3 : c = '\x08'
    · subst h3
      rw [show escChar '\x08' = ['\\', 'b'] from by decide, List.cons_append,
        List.cons_append, List.nil_append, parseStr.eq_def]
      simp [ih]
    by_cases h4 : c = '\t'
    · subst h4
      rw [show escChar '\t' = ['\\', 't'] from by decide, List.cons_append,
        List.cons_append, List.nil_append, parseStr.eq_def]
      simp [ih]
    by_cases h5 : c = '\n'
    · subst h5
      rw [show escChar '\n' = ['\\', 'n'] from by decide, List.cons_append,
        List.cons_append, List.nil_append, parseStr.eq_def]
      simp [ih]
    by_cases h6 : c = '\x0c'
    · subst h6
      rw [show escChar '\x0c' = ['\\', 'f'] from by decide, List.cons_append,
        List.cons_append, List.nil_append, parseStr.eq_def]
      simp [ih]
    by_cases h7 : c = '\r'
    · subst h7
      rw [show escChar '\r' = ['\\', 'r'] from by decide, List.cons_append,
        List.cons_append, List.nil_append, parseStr.eq_def]
      simp [ih]
    by_cases h8 : c.toNat < 32
    · have hd1 : c.toNat / 16 < 16 := by omega
      have hd2 : c.toNat % 16 < 16 := Nat.mod_lt _ (by norm_num)
      have hv : hexVal '0' = some 0 := by decide
      have hx2 : 16 * (c.toNat / 16) + c.toNat % 16 = c.toNat := by omega
      have hesc : escChar c = ['\\', 'u', '0', '0', hexDig (c.toNat / 16), hexDig (c.toNat % 16)] := by
        simp [escChar, h1, h2, h3, h4, h5, h6, h7, h8]
      rw [hesc]
      simp only [List.cons_append, List.nil_append]
      rw [parseStr.eq_def]
      simp [ih, hv, hexVal_hexDig _ hd1, hexVal_hexDig _ hd2, hx2, Char.ofNat_toNat]
    · have hesc : escChar c = [c] := by
        simp [escChar, h1, h2, h3, h4, h5, h6, h7, h8]
      rw [hesc]
      simp only [List.cons_append, List.nil_append]
      rw [parseStr.eq_def]
      simp [ih, h1, h2]

theorem parseQuoted_enc (s : String) (t : List Char) :
    parseQuoted (encStr s ++ t) = some (s, t) := by
  have h : encStr s ++ t = '"' :: (s.toList.flatMap escChar ++ '"' :: t) := by
    simp [encStr]
  rw [h]
  simp [parseQuoted, parseStr_enc, string_mk_toList]

theorem parseBool_enc (b : Bool) (t : List Char) :
    parseBool ((if b then "true".toList else "false".toList) ++ t) = some (b, t) := by
  cases b <;> simp [parseBool, dropLit]

theorem parseRecord_enc (r : CalendarRecord) (t : List Char) :
    parseRecord (encRecord r ++ t) = some (r, t) := by
  obtain ⟨dt, wk, hol, desc⟩ := r
  cases hol <;>
    simp [encRecord, parseRecord, List.append_assoc, dropLit_append, parseQuoted_enc,
      parseBool, dropLit]

theorem encTail_length : ∀ rs : List CalendarRecord, rs.length < (encTail rs).length := by
  intro rs
  induction rs with
  | nil => simp [encTail]
  | cons r rs ih =>
    simp only [encTail, List.length_cons, List.length_append]
    omega

theorem parseTail_enc : ∀ (rs : List CalendarRecord) (fuel : Nat), rs.length < fuel →
    parseTail fuel (encTail rs) = some (rs, []) := by
  intro rs
  induction rs with
  | nil =>
    intro fuel hf
    obtain ⟨f, rfl⟩ : ∃ f, fuel = f + 1 := ⟨fuel - 1, by omega⟩
    simp [parseTail, encTail, dropLit]
  | cons r rs ih =>
    intro fuel hf
    obtain ⟨f, rfl⟩ : ∃ f, fuel = f + 1 := ⟨fuel - 1, by omega⟩
    have hrs : rs.length < f := by simp at hf; omega
    simp [parseTail, encTail, dropLit, parseRecord_enc, ih f hrs]

/-! Part: Claim theorems -/

/-- Claim C1, counterexample: the normalizer does not turn `"113/01/01"`
into `"20240101"` — stripping the separators leaves 7 characters, so the
row is silently dropped; moreover a row whose date strips to 8 non-digit
characters is kept, so the normalized date is not always 8 digits. -/
theorem C1_counterexample :
    convert_csv_to_json [⟨"113/01/01", "1", "2", "開國紀念日"⟩] = [] ∧
    convert_csv_to_json [⟨"aaaa-bbbb", "1", "2", "x"⟩]
      = [⟨"aaaabbbb", "一", true, "x"⟩] ∧
    ("aaaabbbb".toList.all Char.isDigit) = false := by
  refine ⟨by decide, by decide, by decide⟩

/-- Claim C1 (amended): for every CSV row, the normalizer's output record
has `date` equal to the row's date field with all `/` and `-` characters
removed, and this normalized `date` is always a string of exactly 8
characters (not necessarily digits); every row whose date field does not
reduce to exactly 8 characters is silently excluded.  Input `"2024/01/01"`
yields output date `"20240101"`, while `"113/01/01"` reduces to 7
characters and its row is excluded. -/
theorem C1_date_normalization :
    (∀ rows : List RawRow,
      convert_csv_to_json rows
        = (rows.filter (fun row => (normDate row.dateField).length = 8)).map keptRecord) ∧
    (∀ rows : List RawRow, ∀ rec ∈ convert_csv_to_json rows, rec.date.length = 8) ∧
    (∀ row : RawRow, (normDate row.dateField).length = 8 →
      convert_csv_to_json [row] = [keptRecord row] ∧
      (keptRecord row).date = normDate row.dateField) ∧
    convert_csv_to_json [⟨"2024/01/01", "1", "2", "x"⟩]
      = [⟨"20240101", "一", true, "x"⟩] ∧
    convert_csv_to_json [⟨"113/01/01", "1", "2", "x"⟩] = [] := by
  have key : ∀ rows : List RawRow,
      convert_csv_to_json rows
        = (rows.filter (fun row => (normDate row.dateField).length = 8)).map keptRecord := by
    intro rows
    induction rows with
    | nil => rfl
    | cons row rows ih =>
      by_cases h : (normDate row.dateField).length = 8
      · simp [convert_csv_to_json, List.filterMap_cons, List.filter_cons, h,
          convertRow, keptRecord, ih, convert_csv_to_json] at ih ⊢
        exact ih
      · simp [convert_csv_to_json, List.filterMap_cons, List.filter_cons, h,
          convertRow, ih, convert_csv_to_json] at ih ⊢
        exact ih
  refine ⟨key, ?_, ?_, by decide, by decide⟩
  · intro rows rec hrec
    rw [key] at hrec
    obtain ⟨row, hrow, rfl⟩ := List.mem_map.mp hrec
    have h8 := List.of_mem_filter hrow
    simp only [decide_eq_true_eq] at h8
    simpa [keptRecord] using h8
  · intro row h
    constructor
    · rw [key]
      simp [List.filter_cons, h]
    · rfl

/-- Claim C1, witness instantiating the amended theorem. -/
theorem C1_witness :
    convert_csv_to_json [⟨"2024/01/01", "1", "2", "x"⟩]
        = [keptRecord ⟨"2024/01/01", "1", "2", "x"⟩] ∧
    (keptRecord ⟨"2024/01/01", "1", "2", "x"⟩).date = normDate "2024/01/01" :=
  C1_date_normalization.2.2.1 ⟨"2024/01/01", "1", "2", "x"⟩ (by decide)

/-- Claim C2: the holiday-flag coercion yields true exactly on the truthy
tokens `"2"`, `"是"`, `"true"`, `"True"`, `"1"`, yields false on each falsy
token `"0"`, `"否"`, `"false"`, `"False"`, and yields false on every other
value (the default branch compares with `"2"`, which can never succeed
there); in particular `"3"` and `""` map to false. -/
theorem C2_holiday_flag_coercion :
    (∀ s : String, isHolidayOf s = true ↔ s ∈ ["2", "是", "true", "True", "1"]) ∧
    (∀ s ∈ (["0", "否", "false", "False"] : List String), isHolidayOf s = false) ∧
    (∀ s : String, s ∉ (["2", "是", "true", "True", "1"] : List String) →
      isHolidayOf s = false) ∧
    isHolidayOf "3" = false ∧ isHolidayOf "" = false := by
  have other : ∀ s : String, s ∉ (["2", "是", "true", "True", "1"] : List String) →
      isHolidayOf s = false := by
    intro s h1
    have h2 : s ≠ "2" := fun hs => h1 (by rw [hs]; decide)
    by_cases h3 : s ∈ (["0", "否", "false", "False"] : List String) <;>
      simp [isHolidayOf, h1, h3, h2]
  refine ⟨?_, ?_, other, by decide, by decide⟩
  · intro s
    by_cases h1 : s ∈ (["2", "是", "true", "True", "1"] : List String)
    · simp [isHolidayOf, h1]
    · simp [other s h1, h1]
  · intro s hs
    fin_cases hs <;> decide

/-- Claim C2, witness: concrete instances of the universally quantified
parts of the coercion theorem. -/
theorem C2_witness : isHolidayOf "否" = false ∧ isHolidayOf "3" = false :=
  ⟨C2_holiday_flag_coercion.2.1 "否" (by decide),
   C2_holiday_flag_coercion.2.2.1 "3" (by decide)⟩

/-- Claim C4: `generate_holidays_only` is exactly the order-preserving
filter keeping records with `isHoliday` true and non-empty `description`;
hence its output is a subsequence of the input and every returned record
has `isHoliday = true` and a non-empty description. -/
theorem C4_holidays_only :
    ∀ data : List CalendarRecord,
      generate_holidays_only data
          = data.filter (fun d => d.isHoliday && d.description ≠ "") ∧
      (generate_holidays_only data).Sublist data ∧
      ∀ r ∈ generate_holidays_only data, r.isHoliday = true ∧ r.description ≠ "" := by
  intro data
  refine ⟨rfl, List.filter_sublist data, ?_⟩
  intro r hr
  simp only [generate_holidays_only, List.mem_filter] at hr
  have h := hr.2
  simp only [Bool.and_eq_true, decide_eq_true_eq] at h
  exact ⟨h.1, by simpa using h.2⟩

/-- Claim C4, witness instantiating the filter characterization. -/
theorem C4_witness :
    (⟨"20240101", "一", true, "開國紀念日"⟩ : CalendarRecord).isHoliday = true ∧
    (⟨"20240101", "一", true, "開國紀念日"⟩ : CalendarRecord).description ≠ "" :=
  (C4_holidays_only [⟨"20240101", "一", true, "開國紀念日"⟩]).2.2
    ⟨"20240101", "一", true, "開國紀念日"⟩ (by decide)

/-- Claim C5: `generate_workdays` is exactly the order-preserving filter
keeping records with `isHoliday` false whose description contains one of
the fixed make-up-workday keywords; hence no returned record has
`isHoliday = true`. -/
theorem C5_workdays :
    ∀ data : List CalendarRecord,
      generate_workdays data
          = data.filter (fun d => !d.isHoliday &&
              workday_keywords.any (fun kw => containsSub kw d.description)) ∧
      (generate_workdays data).Sublist data ∧
      ∀ r ∈ generate_workdays data,
        r.isHoliday = false ∧ ∃ kw ∈ workday_keywords, containsSub kw r.description = true := by
  intro data
  refine ⟨rfl, List.filter_sublist data, ?_⟩
  intro r hr
  simp only [generate_workdays, List.mem_filter] at hr
  have h := hr.2
  simp only [Bool.and_eq_true, Bool.not_eq_true', List.any_eq_true] at h
  exact ⟨h.1, h.2⟩

/-- Claim C5, witness instantiating the workday characterization. -/
theorem C5_witness :
    (⟨"20240203", "六", false, "補行上班"⟩ : CalendarRecord).isHoliday = false ∧
    ∃ kw ∈ workday_keywords,
      containsSub kw (⟨"20240203", "六", false, "補行上班"⟩ : CalendarRecord).description = true :=
  (C5_workdays [⟨"20240203", "六", false, "補行上班"⟩]).2.2
    ⟨"20240203", "六", false, "補行上班"⟩ (by decide)

/-- Claim C10: the holidays-only view and the make-up-workday view are
disjoint — the former keeps only records with `isHoliday` true, the latter
only records with `isHoliday` false. -/
theorem C10_views_disjoint :
    ∀ (data : List CalendarRecord) (r : CalendarRecord),
      r ∈ generate_holidays_only data → r ∉ generate_workdays data := by
  intro data r h1 h2
  simp only [generate_holidays_only, List.mem_filter, Bool.and_eq_true] at h1
  simp only [generate_workdays, List.mem_filter, Bool.and_eq_true, Bool.not_eq_true'] at h2
  rw [h1.2.1] at h2
  exact absurd h2.2.1 (by decide)

/-- Claim C10, witness: a concrete record in the holidays-only view is not
in the workday view. -/
theorem C10_witness :
    (⟨"20240101", "一", true, "元旦"⟩ : CalendarRecord) ∉
      generate_workdays [⟨"20240101", "一", true, "元旦"⟩] :=
  C10_views_disjoint [⟨"20240101", "一", true, "元旦"⟩]
    ⟨"20240101", "一", true, "元旦"⟩ (by decide)

/-- Claim C3: `translate_to_english` is total — one output record per input
record, with `date` and `isHoliday` unchanged; the output `week` is the
English weekday label when the weekday is a key of the table and the
original value otherwise; the output `description` is the exact-match
translation when the description is a key, otherwise (for a non-empty
description) the translation of the first table entry in iteration order
whose key is a substring of the description, otherwise the original
description unchanged. -/
theorem C3_translate_total :
    (∀ data : List CalendarRecord,
        translate_to_english data = data.map translateRecord ∧
        (translate_to_english data).length = data.length) ∧
    ∀ d : CalendarRecord,
      (translateRecord d).date = d.date ∧
      (translateRecord d).isHoliday = d.isHoliday ∧
      (translateRecord d).week = (alookup d.week WEEK_EN_MAP).getD d.week ∧
      (translateRecord d).description =
        (match alookup d.description HOLIDAY_EN_MAP with
         | some en => en
         | none =>
           if d.description = "" then d.description
           else (firstSubMatch d.description HOLIDAY_EN_MAP).getD d.description) := by
  refine ⟨fun data => ⟨rfl, by simp [translate_to_english]⟩, ?_⟩
  intro d
  refine ⟨rfl, rfl, rfl, ?_⟩
  cases h : alookup d.description HOLIDAY_EN_MAP with
  | none =>
    by_cases hd : d.description = ""
    · simp [translateRecord, h, hd]
      decide
    · simp [translateRecord, h, hd]
  | some en =>
    have hne : en ≠ d.description := by
      have hm := alookup_mem h
      exact holiday_map_value_ne_key (d.description, en) hm
    simp [translateRecord, h, hne]

/-- Claim C3, witness: the characterization applied to a concrete record
(substring fallback case). -/
theorem C3_witness :
    (translateRecord ⟨"20240417", "三", true, "民族掃墓節補假"⟩).description
      = "Compensatory Leave" := by
  have h := (C3_translate_total.2 ⟨"20240417", "三", true, "民族掃墓節補假"⟩).2.2.2
  rw [h]
  decide

/-- Claim C6: the source lister keeps only CSV-format entries with a
non-empty URL, drops every entry whose description mentions Google or has
no three-digit year token, maps a kept entry to key `token + 1911`
(so `113年` resolves to 2024), and on duplicate years the later entry in
iteration order wins. -/
theorem C6_source_lister :
    (∀ (acc : List (Nat × String)) (d : Distribution),
        containsSub "Google" d.resourceDescription = true → listerStep acc d = acc) ∧
    (∀ (acc : List (Nat × String)) (d : Distribution),
        pyUpper d.resourceFormat ≠ "CSV" → listerStep acc d = acc) ∧
    (∀ (acc : List (Nat × String)) (d : Distribution),
        yearToken d.resourceDescription.toList = none → listerStep acc d = acc) ∧
    (∀ (acc : List (Nat × String)) (d : Distribution) (roc : Nat),
        pyUpper d.resourceFormat = "CSV" → d.resourceDownloadUrl ≠ "" →
        containsSub "Google" d.resourceDescription = false →
        yearToken d.resourceDescription.toList = some roc →
        keptEntry d = some (roc + 1911, d.resourceDownloadUrl) ∧
        nlookup (roc + 1911) (listerStep acc d) = some d.resourceDownloadUrl) ∧
    get_csv_urls [⟨"CSV", "113年中華民國政府行政機關辦公日曆表", "url113"⟩]
      = [(2024, "url113")] ∧
    get_csv_urls [⟨"CSV", "113年Google行事曆", "urlG"⟩] = [] ∧
    nlookup 2024 (get_csv_urls
      [⟨"CSV", "113年甲", "urlA"⟩, ⟨"CSV", "113年乙", "urlB"⟩]) = some "urlB" := by
  refine ⟨?_, ?_, ?_, ?_, by decide, by decide, by decide⟩
  · intro acc d hg
    by_cases hf : pyUpper d.resourceFormat = "CSV"
    · simp [listerStep, keptEntry, hf, hg]
    · simp [listerStep, keptEntry, hf]
  · intro acc d hf
    simp [listerStep, keptEntry, hf]
  · intro acc d hy
    have hy2 : yearToken d.resourceDescription.data = none := hy
    by_cases hf : pyUpper d.resourceFormat = "CSV"
    · by_cases hu : d.resourceDownloadUrl = ""
      · simp [listerStep, keptEntry, hf, hu]
      · by_cases hg : containsSub "Google" d.resourceDescription
        · simp [listerStep, keptEntry, hf, hg]
        · simp [listerStep, keptEntry, hf, hu, hg, hy2]
    · simp [listerStep, keptEntry, hf]
  · intro acc d roc hf hu hg hy
    have hy2 : yearToken d.resourceDescription.data = some roc := hy
    have hk : keptEntry d = some (roc + 1911, d.resourceDownloadUrl) := by
      simp [keptEntry, hf, hu, hg, hy2]
    exact ⟨hk, by simp [listerStep, hk, nlookup_dictInsert]⟩

/-- Claim C6, witness: a concrete kept entry overrides an existing binding
of its year. -/
theorem C6_witness :
    keptEntry ⟨"csv", "113年辦公日曆表", "urlX"⟩ = some (2024, "urlX") ∧
    nlookup 2024 (listerStep [(2024, "urlOld")] ⟨"csv", "113年辦公日曆表", "urlX"⟩)
      = some "urlX" :=
  C6_source_lister.2.2.2.1 [(2024, "urlOld")] ⟨"csv", "113年辦公日曆表", "urlX"⟩ 113
    (by decide) (by decide) (by decide) (by decide)

/-- Claim C7: a lister failure propagates and aborts the whole run, while
per-year failures are contained — the run still succeeds, every year in
the (ascending) sorted key list is attempted, and the sequence of attempted
years does not depend on which per-year bodies fail. -/
theorem C7_error_isolation (E : Type) :
    (∀ (e : E) (proc : Nat → String → Except E Unit),
        mainRun E (.error e) proc = .error e) ∧
    (∀ (urls : List (Nat × String)) (proc : Nat → String → Except E Unit),
      ∃ l : List (Nat × Bool),
        mainRun E (.ok urls) proc = .ok l ∧
        l.map Prod.fst = (urls.map Prod.fst).insertionSort (· ≤ ·) ∧
        (l.map Prod.fst).Sorted (· ≤ ·) ∧
        List.Perm (l.map Prod.fst) (urls.map Prod.fst) ∧
        ∀ proc' : Nat → String → Except E Unit,
          ∃ l', mainRun E (.ok urls) proc' = .ok l' ∧ l'.map Prod.fst = l.map Prod.fst) := by
  have hmap : ∀ (f : Nat → Bool) (l : List Nat),
      (l.map (fun y => (y, f y))).map Prod.fst = l := by
    intro f l
    induction l with
    | nil => rfl
    | cons a l ih => simp [ih]
  constructor
  · intro e proc; rfl
  · intro urls proc
    refine ⟨((urls.map Prod.fst).insertionSort (· ≤ ·)).map
        (fun y => (y, match proc y ((nlookup y urls).getD "") with
                      | .ok _ => true
                      | .error _ => false)), rfl, ?_, ?_, ?_, ?_⟩
    · exact hmap _ _
    · rw [hmap]
      exact List.sorted_insertionSort _ _
    · rw [hmap]
      exact List.perm_insertionSort _ _
    · intro proc'
      refine ⟨_, rfl, ?_⟩
      rw [hmap, hmap]

/-- Claim C7, witness: a concrete failing lister aborts the run. -/
theorem C7_witness :
    mainRun String (.error "api failure") (fun _ _ => .ok ()) = .error "api failure" :=
  (C7_error_isolation String).1 "api failure" (fun _ _ => .ok ())

/-- Claim C8: weekday coercion is idempotent; canonical localized labels
are fixed points (mapping 一 yields 一); numeric tokens 0-6 map to the
corresponding localized labels (mapping 1 yields 一); tokens recognized by
neither scheme pass through unchanged. -/
theorem C8_week_coercion :
    (∀ s : String, weekOf (weekOf s) = weekOf s) ∧
    (weekOf "一" = "一" ∧ weekOf "1" = "一") ∧
    (weekOf "0" = "日" ∧ weekOf "2" = "二" ∧ weekOf "3" = "三" ∧
     weekOf "4" = "四" ∧ weekOf "5" = "五" ∧ weekOf "6" = "六") ∧
    (∀ c ∈ (["日", "一", "二", "三", "四", "五", "六"] : List String), weekOf c = c) ∧
    (∀ s : String, alookup (strip s) WEEK_MAP = none → weekOf s = s) := by
  have hpass : ∀ s : String, alookup (strip s) WEEK_MAP = none → weekOf s = s := by
    intro s h
    simp [weekOf, h]
  have hidem : ∀ s : String, weekOf (weekOf s) = weekOf s := by
    intro s
    cases h : alookup (strip s) WEEK_MAP with
    | none =>
      rw [hpass s h]
      exact hpass s h
    | some v =>
      have hv : weekOf s = v := by simp [weekOf, h]
      rw [hv]
      exact week_map_values (strip s, v) (alookup_mem h)
  refine ⟨hidem, ⟨by decide, by decide⟩,
    ⟨by decide, by decide, by decide, by decide, by decide, by decide⟩, ?_, hpass⟩
  intro c hc
  fin_cases hc <;> decide

/-- Claim C8, witness: a canonical label is a fixed point and an
unrecognized token passes through unchanged. -/
theorem C8_witness : weekOf "日" = "日" ∧ weekOf "holiday" = "holiday" :=
  ⟨C8_week_coercion.2.2.2.1 "日" (by decide),
   C8_week_coercion.2.2.2.2 "holiday" (by decide)⟩

/-- Claim C9: serializing a dataset with the writer's JSON encoding
(indented, non-ASCII preserved unescaped) and parsing the result back
yields the original dataset, field for field, with record order
preserved. -/
theorem C9_json_round_trip :
    ∀ rs : List CalendarRecord, json_load (save_json rs) = some rs := by
  intro rs
  cases rs with
  | nil => decide
  | cons r rs =>
    have hs : save_json (r :: rs) = '[' :: '\n' :: (encRecord r ++ encTail rs) := rfl
    rw [hs]
    have hlen : rs.length < (encRecord r).length + (encTail rs).length + 1 + 1 := by
      have h := encTail_length rs
      omega
    simp [json_load, dropLit, parseRecord_enc, parseTail_enc rs _ hlen]

end TaiwanHolidays
